import Mathlib

/-!
# guardian-agent: policy store and connection dispatcher

A shallow embedding of `gossh/policy/policy.go` and of the dispatcher in
`gossh/agent/agent.go`.

Conventions of the embedding.

* A Go `map[K]V` is an association list read by its first matching key; the
  nil map is `none`, an initialised map is `some entries`.  Reading a nil map
  yields "not found", assigning into it is a runtime panic.
* A method with a value receiver that assigns into `store.rules` mutates the
  map shared with the caller, so such a method returns the store afterwards.
* A Go slice of strings is a `List String` (a nil slice and an empty slice are
  identified, and slices are values: no two rules share a backing array).
* The package-level `sync.RWMutex` is not modelled: every method is run on one
  execution path, where each `Lock`/`RLock` is released before the next one is
  taken.
* The file system is an explicit `Disk` value threaded through the calls.
* `agent.go` only reads its own `policyStore`, which is therefore modelled by
  its lookup function; the calls into the multiplexer, the control codec, the
  approval prompt and the protocol engine are answered by an environment
  record, and a run of the dispatcher is the trace of the calls it makes.
-/

namespace Policy

/-! ## Data model (`policy.go`, lines 10-33) -/

/-- The composite lookup key of the store (`type Scope struct`). -/
structure Scope where
  ClientUsername : String
  ClientHostname : String
  ClientPort : Nat
  ServiceUsername : String
  ServiceHostname : String
deriving DecidableEq, Repr

/-- The approval attached to a scope (`type Rule struct`). -/
structure Rule where
  AllCommands : Bool
  Commands : List String
deriving DecidableEq, Repr

/-- Contents of an initialised `map[Scope]Rule`. -/
abbrev RuleMap := List (Scope × Rule)

/-- The map read `m[k]`: value and presence flag folded into an `Option`. -/
def RuleMap.get : RuleMap → Scope → Option Rule
  | [], _ => none
  | (k, v) :: rest, s => if k = s then some v else RuleMap.get rest s

/-- Dropping every entry stored under the key `s`. -/
def RuleMap.erase : RuleMap → Scope → RuleMap
  | [], _ => []
  | (k, v) :: rest, s =>
    if k = s then RuleMap.erase rest s else (k, v) :: RuleMap.erase rest s

/-- The map assignment `m[k] = v` on an initialised map: the entry under `k`
is replaced, every other key keeps its value. -/
def RuleMap.set (m : RuleMap) (k : Scope) (v : Rule) : RuleMap :=
  (k, v) :: RuleMap.erase m k

/-- The store (`type Store struct`): `rules = none` is the nil map. -/
structure Store where
  rules : Option RuleMap
  path : String
deriving DecidableEq, Repr

/-- Runtime panics of the Go runtime that the store methods can raise. -/
inductive Fault where
  | assignmentToEntryInNilMap
deriving DecidableEq, Repr

/-- Result of a call that either returns a value or panics. -/
inductive Outcome (α : Type) where
  | returned (val : α)
  | panicked (fault : Fault)
deriving DecidableEq, Repr

/-- Errors the store methods hand back to their caller. -/
inductive StoreError where
  | openFile
  | write
  | syntaxError
  | unmarshalType
deriving DecidableEq, Repr

/-! ## JSON values and the backing file -/

/-- JSON documents as `encoding/json` produces and consumes them. -/
inductive JSON where
  | null
  | bool (b : Bool)
  | num (n : Nat)
  | str (s : String)
  | arr (items : List JSON)
  | obj (fields : List (String × JSON))

/-- What a JSON decoder meets first in a file: nothing (empty or only white
space), bytes that are not JSON, or a first top-level value. -/
inductive FileData where
  | empty
  | malformed
  | value (v : JSON)

/-- The file system as the store sees it. `files p = none`: no file at `p`. -/
structure Disk where
  files : String → Option FileData
  denyRead : String → Bool
  denyWrite : String → Bool
  writeFails : String → Bool

/-- The effect of `os.O_CREATE`: an absent file comes into being empty. -/
def Disk.create (d : Disk) (p : String) : Disk :=
  match d.files p with
  | some _ => d
  | none => { d with files := fun q => if q = p then some FileData.empty else d.files q }

/-- The data of the file at `p` (an absent file reads as empty). -/
def Disk.read (d : Disk) (p : String) : FileData :=
  match d.files p with
  | some c => c
  | none => FileData.empty

/-- Writing one JSON value from offset 0 of the file at `p`: whatever the file
held before, the first top-level value is now `v`. -/
def Disk.put (d : Disk) (p : String) (v : JSON) : Disk :=
  { d with files := fun q => if q = p then some (FileData.value v) else d.files q }

/-! ## Operations of `policy.go` -/

/-- The loop `for _, c := range commands { if req == c { return true } }`,
reporting whether it returned from inside the loop. -/
def rangeFinds (reqCommand : String) : List String → Bool
  | [] => false
  | storedCommand :: rest =>
    if reqCommand = storedCommand then true else rangeFinds reqCommand rest

/-- `func (rule Rule) IsApproved(reqCommand string) bool` (lines 45-55). -/
def Rule.IsApproved (rule : Rule) (reqCommand : String) : Bool :=
  if rule.AllCommands then true
  else if rangeFinds reqCommand rule.Commands then true
  else false

/-- The read `storedRule, ok := store.rules[scope]`, defined on a nil map too. -/
def Store.lookup (store : Store) (scope : Scope) : Option Rule :=
  match store.rules with
  | none => none
  | some m => m.get scope

/-- `func (store Store) GetRule(scope Scope) Rule` (lines 57-66): the rule
returned, paired with the store as the call leaves it. -/
def Store.GetRule (store : Store) (scope : Scope) : Rule × Store :=
  match store.lookup scope with
  | some storedRule => (storedRule, store)
  | none => ({ AllCommands := false, Commands := [] }, store)

/-- JSON form of a scope, by its field tags. -/
def Scope.toJSON (s : Scope) : JSON :=
  JSON.obj [("ClientUsername", JSON.str s.ClientUsername),
            ("ClientHostname", JSON.str s.ClientHostname),
            ("ClientPort", JSON.num s.ClientPort),
            ("ServiceUsername", JSON.str s.ServiceUsername),
            ("ServiceHostname", JSON.str s.ServiceHostname)]

/-- JSON form of a rule, by its field tags. -/
def Rule.toJSON (r : Rule) : JSON :=
  JSON.obj [("AllCommands", JSON.bool r.AllCommands),
            ("Commands", JSON.arr (r.Commands.map JSON.str))]

/-- JSON form of a `storageEntry`. -/
def storageEntryJSON (e : Scope × Rule) : JSON :=
  JSON.obj [("Scope", e.1.toJSON), ("Rule", e.2.toJSON)]

/-- `func (store *Store) MarshalJSON()` (lines 128-141): the flat list of
entries, always a JSON array (ranging over a nil map yields no entry). -/
def Store.MarshalJSON (store : Store) : JSON :=
  match store.rules with
  | none => JSON.arr []
  | some m => JSON.arr (m.map storageEntryJSON)

/-- `dec.Decode(&store.rules)`: decoding one JSON value into a
`map[Scope]Rule`.  `null` sets the map to nil.  An object is refused because a
struct is not a legal map key for `encoding/json`; an array, string, number or
boolean is refused because the target is a map. -/
def decodeRules : JSON → Except StoreError (Option RuleMap)
  | JSON.null => Except.ok none
  | JSON.bool _ => Except.error StoreError.unmarshalType
  | JSON.num _ => Except.error StoreError.unmarshalType
  | JSON.str _ => Except.error StoreError.unmarshalType
  | JSON.arr _ => Except.error StoreError.unmarshalType
  | JSON.obj _ => Except.error StoreError.unmarshalType

/-- `func (store *Store) load() (err error)` (lines 95-110). -/
def Store.load (store : Store) (disk : Disk) : Option StoreError × Store × Disk :=
  if disk.denyRead store.path then (some StoreError.openFile, store, disk)
  else
    let disk1 := disk.create store.path
    match disk1.read store.path with
    | FileData.empty => (none, store, disk1)
    | FileData.malformed => (some StoreError.syntaxError, store, disk1)
    | FileData.value v =>
      match decodeRules v with
      | Except.ok m => (none, { store with rules := m }, disk1)
      | Except.error e => (some e, store, disk1)

/-- `func (store *Store) save() (err error)` (lines 112-126). -/
def Store.save (store : Store) (disk : Disk) : Option StoreError × Disk :=
  if disk.denyWrite store.path then (some StoreError.openFile, disk)
  else
    let disk1 := disk.create store.path
    if disk1.writeFails store.path then (some StoreError.write, disk1)
    else (none, disk1.put store.path store.MarshalJSON)

/-- `func NewStore(configPath string) (err error, store Store)` (lines 35-43). -/
def NewStore (configPath : String) (disk : Disk) : Option StoreError × Store × Disk :=
  let store : Store := { rules := none, path := configPath }
  store.load disk

/-- `func (store Store) SetAllAllowedInScope(sc Scope) (err error)`
(lines 68-77). -/
def Store.SetAllAllowedInScope (store : Store) (sc : Scope) (disk : Disk) :
    Outcome (Option StoreError × Store × Disk) :=
  let rule := (store.GetRule sc).1
  let rule := { rule with AllCommands := true }
  match store.rules with
  | none => Outcome.panicked Fault.assignmentToEntryInNilMap
  | some m =>
    let store1 : Store := { store with rules := some (m.set sc rule) }
    let r := store1.save disk
    Outcome.returned (r.1, store1, r.2)

/-- `func (store Store) SetCommandAllowedInScope(sc Scope, newCommand string)`
(lines 79-93). -/
def Store.SetCommandAllowedInScope (store : Store) (sc : Scope) (newCommand : String)
    (disk : Disk) : Outcome (Option StoreError × Store × Disk) :=
  let rule := (store.GetRule sc).1
  if rangeFinds newCommand rule.Commands then Outcome.returned (none, store, disk)
  else
    let rule := { rule with Commands := rule.Commands ++ [newCommand] }
    match store.rules with
    | none => Outcome.panicked Fault.assignmentToEntryInNilMap
    | some m =>
      let store1 : Store := { store with rules := some (m.set sc rule) }
      let r := store1.save disk
      Outcome.returned (r.1, store1, r.2)

end Policy

namespace Agent

/-! ## Control messages (`gossh/common`, used by `agent.go`) -/

/-- Modelled from the spec: the message-type discriminators of package
`common`, whose constant declarations are not among the sources.  The spec
lists five kinds of control message; any other number on the wire is
`other n`. -/
inductive MsgNum where
  | MsgExecutionRequest
  | MsgExecutionApproved
  | MsgExecutionDenied
  | MsgHandoffComplete
  | MsgAgentForwardingNotice
  | other (n : Nat)
deriving DecidableEq, Repr

/-- Payload of an execution request: `{user, command, server}`. -/
structure ExecutionRequestMessage where
  User : String
  Command : String
  Server : String
deriving DecidableEq, Repr

/-- Payload of a handoff notice: one `uint32`. -/
structure HandoffCompleteMessage where
  NextTransportByte : Nat
deriving DecidableEq, Repr

/-- What `WriteControlPacket` is given as payload: raw bytes, or the
`ssh.Marshal` image of a handoff message. -/
inductive Payload where
  | bytes (b : List Nat)
  | marshalHandoff (msg : HandoffCompleteMessage)
deriving DecidableEq, Repr

/-- The three streams a connection accepts, in their fixed order. -/
inductive Stream where
  | control
  | sshData
  | transport
deriving DecidableEq, Repr

/-- Observable steps of one run of `handleConnection`. -/
inductive Event where
  | yamuxServer
  | masterClose
  | ymuxAccept (s : Stream)
  | ymuxClose
  | streamClose (s : Stream)
  | readControlPacket
  | policyInStore
  | askForApproval
  | writeControlPacket (msgNum : MsgNum) (payload : Payload)
  | proxySSH
  | readAllMaster
  | processExit
deriving DecidableEq, Repr

/-! ## The session proxy (`agent.go`, lines 24-73) -/

/-- Go `int` subtraction on a 64-bit platform: the result wraps into
`[-2^63, 2^63)`. -/
def wrapInt (x : Int) : Int :=
  (x + 9223372036854775808) % 18446744073709551616 - 9223372036854775808

/-- The conversion `uint32(x)` of a Go `int`: the low 32 bits. -/
def toUint32 (x : Int) : Nat :=
  (x % 4294967296).toNat

/-- What the collaborators of `proxySSH` answer during one call. -/
structure ProxyEnv where
  dialAgentOk : Bool
  currentUserOk : Bool
  knownHostsOk : Bool
  newProxyConnOk : Bool
  updateClientSessionParamsOk : Bool
  runOk : Bool
  bytesRead : Int
  bufferedFromServer : Int
  writeControlOk : Bool

/-- How a call of `proxySSH` ends: `log.Fatalf` ends the process, otherwise it
returns an error (`true`) or nil (`false`). -/
inductive ProxyResult where
  | fatal
  | returned (err : Bool)
deriving DecidableEq, Repr

/-- `func proxySSH(toClient, toServer, control, pc) error`: the control packets
it writes and how it ends. -/
def proxySSH (env : ProxyEnv) : List Event × ProxyResult :=
  if !env.dialAgentOk then ([], ProxyResult.returned true)
  else if !env.currentUserOk then ([], ProxyResult.fatal)
  else if !env.knownHostsOk then ([], ProxyResult.returned true)
  else if !env.newProxyConnOk then ([], ProxyResult.returned true)
  else if !env.updateClientSessionParamsOk then ([], ProxyResult.returned true)
  else if !env.runOk then ([], ProxyResult.returned true)
  else
    let handshakeCompletedMsg : HandoffCompleteMessage :=
      { NextTransportByte := toUint32 (wrapInt (env.bytesRead - env.bufferedFromServer)) }
    let packet := Payload.marshalHandoff handshakeCompletedMsg
    ([Event.writeControlPacket MsgNum.MsgHandoffComplete packet],
     ProxyResult.returned (!env.writeControlOk))

/-- The handoff offsets carried by the `HandoffComplete` packets of a trace. -/
def handoffOffsets : List Event → List Nat
  | [] => []
  | Event.writeControlPacket MsgNum.MsgHandoffComplete (Payload.marshalHandoff m) :: rest =>
    m.NextTransportByte :: handoffOffsets rest
  | _ :: rest => handoffOffsets rest

/-! ## The dispatcher (`agent.go`, lines 110-192) -/

/-- The fields of `ssh.Policy` that the agent reads. -/
structure Policy where
  User : String
  Command : String
  Server : String
deriving DecidableEq, Repr

/-- The value type of the agent's store (`ssh.PolicyScope`). -/
structure PolicyScope where
  AllCommands : Bool
  Commands : List String
deriving DecidableEq, Repr

/-- `type policyStore map[ssh.PolicyKey]ssh.PolicyScope`, as its lookup. -/
abbrev policyStore (K : Type) := K → Option PolicyScope

/-- The loop `for _, v := range scope.Commands { if policy.Command == v ... }`. -/
def rangeFinds (command : String) : List String → Bool
  | [] => false
  | v :: rest => if command = v then true else rangeFinds command rest

/-- `func policyInStore(store policyStore, policy ssh.Policy) bool`
(lines 110-123); `getPolicyKey` stands for `policy.GetPolicyKey()`. -/
def policyInStore {K : Type} (getPolicyKey : Policy → K) (store : policyStore K)
    (policy : Policy) : Bool :=
  match store (getPolicyKey policy) with
  | some scope =>
    if scope.AllCommands then true
    else if rangeFinds policy.Command scope.Commands then true
    else false
  | none => false

/-- What the collaborators of `handleConnection` answer during one call. -/
structure ConnEnv (K : Type) where
  yamuxServerOk : Bool
  acceptControlOk : Bool
  msgNum : MsgNum
  payload : List Nat
  unmarshal : List Nat → Option ExecutionRequestMessage
  newPolicy : String → String → String → Policy
  getPolicyKey : Policy → K
  askForApproval : Policy → policyStore K → Bool × policyStore K
  acceptDataOk : Bool
  acceptTransportOk : Bool
  proxy : ProxyEnv

/-- The part of `handleConnection` after the request is approved
(lines 164-191), deferred closes included. -/
def serveApproved {K : Type} (env : ConnEnv K) : List Event :=
  [Event.writeControlPacket MsgNum.MsgExecutionApproved (Payload.bytes []),
   Event.ymuxAccept Stream.sshData] ++
  if !env.acceptDataOk then
    [Event.streamClose Stream.control, Event.ymuxClose]
  else
    [Event.ymuxAccept Stream.transport] ++
    if !env.acceptTransportOk then
      [Event.streamClose Stream.sshData, Event.streamClose Stream.control, Event.ymuxClose]
    else
      [Event.proxySSH] ++ (proxySSH env.proxy).1 ++
      match (proxySSH env.proxy).2 with
      | ProxyResult.fatal => [Event.processExit]
      | ProxyResult.returned _ =>
        [Event.streamClose Stream.transport, Event.streamClose Stream.sshData,
         Event.streamClose Stream.control, Event.readAllMaster,
         Event.streamClose Stream.transport, Event.streamClose Stream.sshData,
         Event.streamClose Stream.control, Event.ymuxClose]

/-- The policy decision of `handleConnection` and what follows it
(lines 154-191). -/
def decideAndServe {K : Type} (env : ConnEnv K) (store : policyStore K) (policy : Policy) :
    List Event × policyStore K :=
  if !policyInStore env.getPolicyKey store policy then
    let r := env.askForApproval policy store
    if r.1 then
      ([Event.policyInStore, Event.askForApproval,
        Event.writeControlPacket MsgNum.MsgExecutionDenied (Payload.bytes []),
        Event.streamClose Stream.control, Event.ymuxClose], r.2)
    else
      ([Event.policyInStore, Event.askForApproval] ++ serveApproved env, r.2)
  else
    ([Event.policyInStore] ++ serveApproved env, store)

/-- `func handleConnection(master net.Conn, store policyStore)` (lines 125-192):
the trace of the call and the store afterwards. -/
def handleConnection {K : Type} (env : ConnEnv K) (store : policyStore K) :
    List Event × policyStore K :=
  if !env.yamuxServerOk then ([Event.yamuxServer, Event.masterClose], store)
  else if !env.acceptControlOk then
    ([Event.yamuxServer, Event.ymuxAccept Stream.control, Event.ymuxClose], store)
  else if env.msgNum ≠ MsgNum.MsgExecutionRequest then
    ([Event.yamuxServer, Event.ymuxAccept Stream.control, Event.readControlPacket,
      Event.streamClose Stream.control, Event.ymuxClose], store)
  else
    match env.unmarshal env.payload with
    | none =>
      ([Event.yamuxServer, Event.ymuxAccept Stream.control, Event.readControlPacket,
        Event.streamClose Stream.control, Event.ymuxClose], store)
    | some execReq =>
      let policy := env.newPolicy execReq.User execReq.Command execReq.Server
      let r := decideAndServe env store policy
      ([Event.yamuxServer, Event.ymuxAccept Stream.control, Event.readControlPacket] ++ r.1, r.2)

end Agent

/-! # Concrete inputs used by the evaluations below -/

namespace Policy

/-- A disk with no file at all, on which every open and write succeeds. -/
def blankDisk : Disk :=
  { files := fun _ => none
    denyRead := fun _ => false
    denyWrite := fun _ => false
    writeFails := fun _ => false }

/-- A disk on which the store file cannot be opened for writing. -/
def readOnlyDisk : Disk :=
  { files := fun _ => none
    denyRead := fun _ => false
    denyWrite := fun _ => true
    writeFails := fun _ => false }

/-- The scope of the spec's scenario: user alice on host bastion, service db1. -/
def aliceScope : Scope :=
  { ClientUsername := "alice"
    ClientHostname := "bastion"
    ClientPort := 22
    ServiceUsername := "alice"
    ServiceHostname := "db1" }

/-- Another scope, differing from `aliceScope` in its service host. -/
def bobScope : Scope :=
  { ClientUsername := "bob"
    ClientHostname := "bastion"
    ClientPort := 22
    ServiceUsername := "bob"
    ServiceHostname := "db2" }

/-- An initialised store holding one rule that approves only `ls`. -/
def lsStore : Store :=
  { rules := some [(aliceScope, { AllCommands := false, Commands := ["ls"] })]
    path := "policy.json" }

/-- An initialised store with no rule at all. -/
def emptyStore : Store :=
  { rules := some [], path := "policy.json" }

/-- A store whose map was never initialised. -/
def nilStore : Store :=
  { rules := none, path := "policy.json" }

/-- The store a call left behind, when the call returned. -/
def Outcome.storeAfter : Outcome (Option StoreError × Store × Disk) → Option Store
  | Outcome.returned r => some r.2.1
  | Outcome.panicked _ => none

/-- The disk a call left behind, when the call returned. -/
def Outcome.diskAfter (d : Disk) : Outcome (Option StoreError × Store × Disk) → Disk
  | Outcome.returned r => r.2.2
  | Outcome.panicked _ => d

/-- Whether a call ended in a runtime panic. -/
def Outcome.isPanic {α : Type} : Outcome α → Bool
  | Outcome.returned _ => false
  | Outcome.panicked _ => true

/-- Calling `SetCommandAllowedInScope(sc, c)` twice in a row, starting from
`store`: the store after the second call, if both calls returned. -/
def approveTwice (store : Store) (sc : Scope) (c : String) (disk : Disk) : Option Store :=
  match store.SetCommandAllowedInScope sc c disk with
  | Outcome.panicked _ => none
  | Outcome.returned r1 => Outcome.storeAfter (r1.2.1.SetCommandAllowedInScope sc c r1.2.2)

end Policy

namespace Agent

/-- A proxy session in which every step succeeds, 1000 bytes were read from
the server and 24 of them are still buffered. -/
def okProxy : ProxyEnv :=
  { dialAgentOk := true
    currentUserOk := true
    knownHostsOk := true
    newProxyConnOk := true
    updateClientSessionParamsOk := true
    runOk := true
    bytesRead := 1000
    bufferedFromServer := 24
    writeControlOk := true }

/-- A proxy session in which every step succeeds and exactly 2^32 bytes were
read from the server, none of them left buffered. -/
def longProxy : ProxyEnv :=
  { okProxy with bytesRead := 4294967296, bufferedFromServer := 0 }

/-- The agent's store right after `make(policyStore)`. -/
def noRules : policyStore String := fun _ => none

/-- A connection that sends an execution request for `ls`; the approval
prompt, when asked, denies. -/
def requestEnv : ConnEnv String :=
  { yamuxServerOk := true
    acceptControlOk := true
    msgNum := MsgNum.MsgExecutionRequest
    payload := []
    unmarshal := fun _ => some { User := "alice", Command := "ls", Server := "db1" }
    newPolicy := fun u c s => { User := u, Command := c, Server := s }
    getPolicyKey := fun p => p.User
    askForApproval := fun _ st => (true, st)
    acceptDataOk := true
    acceptTransportOk := true
    proxy := okProxy }

/-- The same connection with a prompt that approves, and a peer that never
opens the data stream. -/
def noDataStreamEnv : ConnEnv String :=
  { requestEnv with askForApproval := fun _ st => (false, st), acceptDataOk := false }

/-- A connection whose first control message is a handoff notice. -/
def handoffFirstEnv : ConnEnv String :=
  { requestEnv with msgNum := MsgNum.MsgHandoffComplete }

end Agent

/-! # Theorems about the policy store -/

namespace Policy

/-! ## Helper lemmas -/

theorem rangeFinds_eq_true_iff (c : String) (l : List String) :
    rangeFinds c l = true ↔ c ∈ l := by
  induction l with
  | nil => simp [rangeFinds]
  | cons a rest ih =>
    by_cases h : c = a
    · simp [rangeFinds, h]
    · simp [rangeFinds, h, ih]

theorem rangeFinds_eq_false_iff (c : String) (l : List String) :
    rangeFinds c l = false ↔ c ∉ l := by
  rw [← rangeFinds_eq_true_iff]
  cases rangeFinds c l <;> simp

theorem isApproved_eq_true_iff (rule : Rule) (c : String) :
    rule.IsApproved c = true ↔ (rule.AllCommands = true ∨ c ∈ rule.Commands) := by
  unfold Rule.IsApproved
  by_cases ha : rule.AllCommands = true
  · simp [ha]
  · by_cases hc : rangeFinds c rule.Commands = true
    · simp [ha, hc, (rangeFinds_eq_true_iff c rule.Commands).mp hc]
    · have hn : c ∉ rule.Commands := fun hm => hc ((rangeFinds_eq_true_iff c rule.Commands).mpr hm)
      simp [ha, hc, hn]

theorem RuleMap.get_eq_none_of_absent (m : RuleMap) (s : Scope)
    (h : ∀ r, (s, r) ∉ m) : RuleMap.get m s = none := by
  induction m with
  | nil => rfl
  | cons e rest ih =>
    obtain ⟨k, v⟩ := e
    by_cases hk : k = s
    · exact absurd (List.mem_cons_self _ _) (hk ▸ h v)
    · simp only [RuleMap.get, hk, if_false]
      exact ih (fun r hr => h r (List.mem_cons_of_mem _ hr))

theorem RuleMap.get_set_same (m : RuleMap) (k : Scope) (v : Rule) :
    RuleMap.get (m.set k v) k = some v := by
  simp [RuleMap.set, RuleMap.get]

theorem getRule_after_set_same (store : Store) (m : RuleMap) (k : Scope) (v : Rule) :
    (Store.GetRule { store with rules := some (m.set k v) } k).1 = v := by
  simp [Store.GetRule, Store.lookup, RuleMap.get_set_same]

theorem decodeRules_ok_nil (v : JSON) (m : Option RuleMap)
    (h : decodeRules v = Except.ok m) : m = none := by
  cases v <;> simp [decodeRules] at h
  exact h.symm

theorem load_keeps_nil (store : Store) (disk : Disk) (h : store.rules = none) :
    (store.load disk).2.1.rules = none := by
  unfold Store.load
  by_cases hd : disk.denyRead store.path = true
  · simp [hd, h]
  · simp only [hd]
    cases hr : (disk.create store.path).read store.path with
    | empty => simpa using h
    | malformed => simpa using h
    | value v =>
      cases hv : decodeRules v with
      | ok m => simpa [hv] using decodeRules_ok_nil v m hv
      | error e => simpa [hv] using h

theorem newStore_rules_nil (configPath : String) (disk : Disk) :
    (NewStore configPath disk).2.1.rules = none :=
  load_keeps_nil _ disk rfl

end Policy

namespace Policy

/-! ## The approval predicate -/

/-- C1: for every rule and every command string `c`, the empty string
included, `IsApproved` returns true exactly when the rule has `AllCommands`
set or `c` is one of its `Commands`. -/
theorem IsApproved_iff_allCommands_or_listed (rule : Rule) (c : String) :
    rule.IsApproved c = true ↔ (rule.AllCommands = true ∨ c ∈ rule.Commands) :=
  isApproved_eq_true_iff rule c

/-! ## Reading rules -/

/-- C9: for every store (its map initialised or nil) and every scope `S`
under which the map holds no entry, the rule returned by `GetRule(S)` approves
no command string; and `GetRule` on any scope leaves the store as it was. -/
theorem GetRule_unseen_approves_nothing (store : Store) (S : Scope)
    (hS : ∀ m, store.rules = some m → ∀ r, (S, r) ∉ m) :
    (∀ c, (store.GetRule S).1.IsApproved c = false) ∧
      ∀ S1, (store.GetRule S1).2 = store := by
  constructor
  · intro c
    have hl : store.lookup S = none := by
      unfold Store.lookup
      cases hm : store.rules with
      | none => rfl
      | some m => exact RuleMap.get_eq_none_of_absent m S (hS m hm)
    simp [Store.GetRule, hl, Rule.IsApproved, rangeFinds]
  · intro S1
    unfold Store.GetRule
    cases store.lookup S1 <;> rfl

/-- Witness for C9: `bobScope` has no entry in `lsStore`. -/
theorem GetRule_unseen_approves_nothing_witness :
    (∀ c, (lsStore.GetRule bobScope).1.IsApproved c = false) ∧
      ∀ S1, (lsStore.GetRule S1).2 = lsStore :=
  GetRule_unseen_approves_nothing lsStore bobScope (by
    intro m hm r hr
    have hm1 : m = [(aliceScope, { AllCommands := false, Commands := ["ls"] })] :=
      (Option.some.inj hm).symm
    subst hm1
    simp [aliceScope, bobScope] at hr)

/-! ## Granting all commands -/

/-- C6: for every store whose map is initialised, every scope `S` and every
disk (so whether or not the file write succeeds), `SetAllAllowedInScope(S)`
returns, and afterwards `IsApproved(GetRule(S), c)` is true for every command
string `c`. -/
theorem SetAllAllowedInScope_approves_everything (store : Store) (m : RuleMap)
    (hm : store.rules = some m) (S : Scope) (disk : Disk) :
    ∃ err store1 disk1,
      store.SetAllAllowedInScope S disk = Outcome.returned (err, store1, disk1) ∧
      ∀ c, (store1.GetRule S).1.IsApproved c = true := by
  let rule : Rule := { (store.GetRule S).1 with AllCommands := true }
  let store1 : Store := { store with rules := some (m.set S rule) }
  refine ⟨(store1.save disk).1, store1, (store1.save disk).2, ?_, ?_⟩
  · simp only [Store.SetAllAllowedInScope, hm]
  · intro c
    rw [getRule_after_set_same]
    simp [Rule.IsApproved]

/-- Witness for C6: on a disk that refuses the write, a store that approved
only `ls` approves everything for `aliceScope` after the call. -/
theorem SetAllAllowedInScope_approves_everything_witness :
    lsStore.rules = some [(aliceScope, { AllCommands := false, Commands := ["ls"] })] ∧
      ∃ err store1 disk1,
        lsStore.SetAllAllowedInScope aliceScope readOnlyDisk =
          Outcome.returned (err, store1, disk1) ∧
        ∀ c, (store1.GetRule aliceScope).1.IsApproved c = true :=
  ⟨rfl, SetAllAllowedInScope_approves_everything lsStore _ rfl aliceScope readOnlyDisk⟩

/-! ## Granting one command -/

end Policy

namespace Policy

/-! ## Approving the same command twice -/

theorem count_eq_zero_of_rangeFinds_false (c : String) (l : List String)
    (h : ¬ rangeFinds c l = true) : l.count c = 0 := by
  have hn : c ∉ l := fun hm => h ((rangeFinds_eq_true_iff c l).mpr hm)
  exact List.count_eq_zero_of_not_mem hn

theorem one_le_count_of_rangeFinds (c : String) (l : List String)
    (h : rangeFinds c l = true) : 1 ≤ l.count c :=
  List.count_pos_iff.mpr ((rangeFinds_eq_true_iff c l).mp h)

/-- Idempotence on an initialised map: for every store whose map is initialised
and in whose rule for `S` the command `C` occurs at most once, two calls of
`SetCommandAllowedInScope(S, C)` in a row both return, the second one changes
neither the store nor the disk, and afterwards `C` occurs exactly once in the
`Commands` of the rule of `S`. -/
theorem SetCommandAllowedInScope_twice_lists_once (store : Store) (m : RuleMap)
    (hm : store.rules = some m) (S : Scope) (C : String) (disk : Disk)
    (hc : (store.GetRule S).1.Commands.count C ≤ 1) :
    ∃ err store1 disk1,
      store.SetCommandAllowedInScope S C disk = Outcome.returned (err, store1, disk1) ∧
      store1.SetCommandAllowedInScope S C disk1 = Outcome.returned (none, store1, disk1) ∧
      (store1.GetRule S).1.Commands.count C = 1 := by
  by_cases hf : rangeFinds C (store.GetRule S).1.Commands = true
  · refine ⟨none, store, disk, ?_, ?_, ?_⟩
    · simp [Store.SetCommandAllowedInScope, hf]
    · simp [Store.SetCommandAllowedInScope, hf]
    · exact Nat.le_antisymm hc (one_le_count_of_rangeFinds _ _ hf)
  · let rule : Rule := { (store.GetRule S).1 with
      Commands := (store.GetRule S).1.Commands ++ [C] }
    let store1 : Store := { store with rules := some (m.set S rule) }
    have hg : (store1.GetRule S).1 = rule := getRule_after_set_same store m S rule
    have hin : rangeFinds C (store1.GetRule S).1.Commands = true := by
      rw [hg]
      exact (rangeFinds_eq_true_iff _ _).mpr (by simp [rule])
    refine ⟨(store1.save disk).1, store1, (store1.save disk).2, ?_, ?_, ?_⟩
    · simp only [Store.SetCommandAllowedInScope, hf, hm]
      rfl
    · simp [Store.SetCommandAllowedInScope, hin]
    · rw [hg]
      have h0 := count_eq_zero_of_rangeFinds_false C _ hf
      simp [rule, List.count_append, h0]

/-- The idempotence lemma at a concrete input: approving `cat` twice for
`aliceScope` in a store that lists only `ls`. -/
theorem SetCommandAllowedInScope_twice_lists_once_witness :
    lsStore.rules = some [(aliceScope, { AllCommands := false, Commands := ["ls"] })] ∧
      (lsStore.GetRule aliceScope).1.Commands.count "cat" ≤ 1 ∧
      ∃ err store1 disk1,
        lsStore.SetCommandAllowedInScope aliceScope "cat" blankDisk =
          Outcome.returned (err, store1, disk1) ∧
        store1.SetCommandAllowedInScope aliceScope "cat" disk1 =
          Outcome.returned (none, store1, disk1) ∧
        (store1.GetRule aliceScope).1.Commands.count "cat" = 1 :=
  ⟨rfl, by decide,
    SetCommandAllowedInScope_twice_lists_once lsStore _ rfl aliceScope "cat" blankDisk
      (by decide)⟩

theorem getRule_commands_of_nil (store : Store) (h : store.rules = none) (S : Scope) :
    (store.GetRule S).1.Commands = [] := by
  simp [Store.GetRule, Store.lookup, h]

theorem setCommand_panics_of_nil (store : Store) (h : store.rules = none)
    (S : Scope) (C : String) (disk : Disk) :
    store.SetCommandAllowedInScope S C disk =
      Outcome.panicked Fault.assignmentToEntryInNilMap := by
  simp [Store.SetCommandAllowedInScope, getRule_commands_of_nil store h S, rangeFinds, h]

/-- C5: `NewStore` on a path with no file returns no error, yet on the store
returned by `NewStore` for any path and any disk (its map is nil) the first
call of `SetCommandAllowedInScope(S, C)` panics with "assignment to entry in
nil map" for every scope and command, so two calls in a row leave no store in
which `C` is listed once. -/
theorem NewStore_then_SetCommandAllowedInScope_panics :
    (NewStore "policy.json" blankDisk).1 = none ∧
      ∀ (configPath : String) (disk : Disk) (S : Scope) (C : String),
        (NewStore configPath disk).2.1.SetCommandAllowedInScope S C
            (NewStore configPath disk).2.2 =
          Outcome.panicked Fault.assignmentToEntryInNilMap ∧
        approveTwice (NewStore configPath disk).2.1 S C (NewStore configPath disk).2.2 =
          none := by
  refine ⟨rfl, ?_⟩
  intro configPath disk S C
  have hp := setCommand_panics_of_nil (NewStore configPath disk).2.1
    (newStore_rules_nil configPath disk) S C (NewStore configPath disk).2.2
  refine ⟨hp, ?_⟩
  unfold approveTwice
  rw [hp]

/-! ## A store fresh from `NewStore` -/

/-- C7: `NewStore` on a path with no file returns no error, yet on the store
returned by `NewStore` for any path and any disk (its map is nil)
`SetAllAllowedInScope` panics with "assignment to entry in nil map" for every
scope, instead of storing the rule. -/
theorem NewStore_then_SetAllAllowedInScope_panics :
    (NewStore "policy.json" blankDisk).1 = none ∧
      ∀ (configPath : String) (disk : Disk) (S : Scope),
        (NewStore configPath disk).2.1.SetAllAllowedInScope S (NewStore configPath disk).2.2 =
          Outcome.panicked Fault.assignmentToEntryInNilMap := by
  refine ⟨rfl, ?_⟩
  intro configPath disk S
  simp only [Store.SetAllAllowedInScope, newStore_rules_nil configPath disk]

/-! ## Saving and reloading -/

theorem decodeRules_marshalJSON (store : Store) :
    decodeRules store.MarshalJSON = Except.error StoreError.unmarshalType := by
  unfold Store.MarshalJSON
  cases store.rules <;> rfl

theorem load_refuses_value (store2 : Store) (d : Disk) (v : JSON) (e0 : StoreError)
    (hfile : d.files store2.path = some (FileData.value v))
    (hv : decodeRules v = Except.error e0) :
    (∃ e, (store2.load d).1 = some e) ∧ (store2.load d).2.1 = store2 := by
  have hc : d.create store2.path = d := by simp [Disk.create, hfile]
  have hread : d.read store2.path = FileData.value v := by simp [Disk.read, hfile]
  unfold Store.load
  by_cases hr : d.denyRead store2.path = true
  · simp [hr]
  · simp [hr, hc, hread, hv]

theorem put_files_same (d : Disk) (p : String) (v : JSON) :
    (d.put p v).files p = some (FileData.value v) := by
  simp [Disk.put]

/-- C4: for every store and disk on which `save` succeeds, `load` from the same
path does not succeed: it returns an error and leaves the loading store's map
as it was, because the JSON array that `save` wrote is decoded into a
`map[Scope]Rule`. -/
theorem save_then_load_fails (store : Store) (disk : Disk)
    (hs : (store.save disk).1 = none) (store2 : Store) (hp : store2.path = store.path) :
    (∃ e, (store2.load (store.save disk).2).1 = some e) ∧
      (store2.load (store.save disk).2).2.1 = store2 := by
  have hsave : (store.save disk).2 =
      (disk.create store.path).put store.path store.MarshalJSON := by
    unfold Store.save at hs ⊢
    by_cases hw : disk.denyWrite store.path = true
    · simp [hw] at hs
    · by_cases hf : (disk.create store.path).writeFails store.path = true
      · simp [hw, hf] at hs
      · simp [hw, hf]
  rw [hsave]
  exact load_refuses_value store2 _ store.MarshalJSON StoreError.unmarshalType
    (by rw [hp]; exact put_files_same _ _ _) (decodeRules_marshalJSON store)

/-- Witness for C4: the empty initialised store saved on a blank disk cannot
be loaded back. -/
theorem save_then_load_fails_witness :
    (emptyStore.save blankDisk).1 = none ∧ nilStore.path = emptyStore.path ∧
      (∃ e, (nilStore.load (emptyStore.save blankDisk).2).1 = some e) ∧
      (nilStore.load (emptyStore.save blankDisk).2).2.1 = nilStore :=
  ⟨rfl, rfl, save_then_load_fails emptyStore blankDisk rfl nilStore rfl⟩

end Policy

/-! # Theorems about the agent -/

namespace Agent

/-! ## The handoff offset -/

theorem toUint32_wrapInt (x : Int) : (toUint32 (wrapInt x) : Int) = x % 4294967296 := by
  unfold toUint32 wrapInt
  rw [Int.toNat_of_nonneg (Int.emod_nonneg _ (by norm_num))]
  omega

theorem proxySSH_success (env : ProxyEnv)
    (h1 : env.dialAgentOk = true) (h2 : env.currentUserOk = true)
    (h3 : env.knownHostsOk = true) (h4 : env.newProxyConnOk = true)
    (h5 : env.updateClientSessionParamsOk = true) (h6 : env.runOk = true) :
    (proxySSH env).1 =
      [Event.writeControlPacket MsgNum.MsgHandoffComplete
        (Payload.marshalHandoff
          { NextTransportByte := toUint32 (wrapInt (env.bytesRead - env.bufferedFromServer)) })] := by
  simp [proxySSH, h1, h2, h3, h4, h5, h6]

/-- C3 (amended): whenever the proxy session completes without error, `proxySSH`
writes exactly one control packet, a `HandoffComplete` whose
`NextTransportByte` is `bytesRead - buffered` reduced modulo 2^32; it equals
`bytesRead - buffered` exactly whenever that difference lies in `[0, 2^32)`. -/
theorem proxySSH_handoff_offset (env : ProxyEnv)
    (h1 : env.dialAgentOk = true) (h2 : env.currentUserOk = true)
    (h3 : env.knownHostsOk = true) (h4 : env.newProxyConnOk = true)
    (h5 : env.updateClientSessionParamsOk = true) (h6 : env.runOk = true) :
    ∃ n : Nat,
      (proxySSH env).1 =
        [Event.writeControlPacket MsgNum.MsgHandoffComplete
          (Payload.marshalHandoff { NextTransportByte := n })] ∧
      handoffOffsets (proxySSH env).1 = [n] ∧
      (n : Int) = (env.bytesRead - env.bufferedFromServer) % 4294967296 ∧
      (0 ≤ env.bytesRead - env.bufferedFromServer →
        env.bytesRead - env.bufferedFromServer < 4294967296 →
        (n : Int) = env.bytesRead - env.bufferedFromServer) := by
  refine ⟨toUint32 (wrapInt (env.bytesRead - env.bufferedFromServer)), ?_, ?_, ?_, ?_⟩
  · exact proxySSH_success env h1 h2 h3 h4 h5 h6
  · rw [proxySSH_success env h1 h2 h3 h4 h5 h6]
    rfl
  · exact toUint32_wrapInt _
  · intro hlo hhi
    rw [toUint32_wrapInt]
    exact Int.emod_eq_of_lt hlo hhi

/-- Witness for C3 (amended): 1000 bytes read, 24 buffered, offset 976. -/
theorem proxySSH_handoff_offset_witness :
    ∃ n : Nat,
      (proxySSH okProxy).1 =
        [Event.writeControlPacket MsgNum.MsgHandoffComplete
          (Payload.marshalHandoff { NextTransportByte := n })] ∧
      handoffOffsets (proxySSH okProxy).1 = [n] ∧
      (n : Int) = (okProxy.bytesRead - okProxy.bufferedFromServer) % 4294967296 ∧
      (0 ≤ okProxy.bytesRead - okProxy.bufferedFromServer →
        okProxy.bytesRead - okProxy.bufferedFromServer < 4294967296 →
        (n : Int) = okProxy.bytesRead - okProxy.bufferedFromServer) :=
  proxySSH_handoff_offset okProxy rfl rfl rfl rfl rfl rfl

/-- C3 as stated fails once 2^32 bytes have been read: with `bytesRead = 2^32`
and nothing buffered, the `HandoffComplete` packet carries offset 0, not
`bytesRead - buffered = 4294967296`. -/
theorem proxySSH_handoff_offset_counterexample :
    longProxy.bytesRead - longProxy.bufferedFromServer = 4294967296 ∧
      (proxySSH longProxy).1 =
        [Event.writeControlPacket MsgNum.MsgHandoffComplete
          (Payload.marshalHandoff { NextTransportByte := 0 })] ∧
      handoffOffsets (proxySSH longProxy).1 = [0] := by
  refine ⟨by decide, ?_, ?_⟩
  · rw [proxySSH_success longProxy rfl rfl rfl rfl rfl rfl]
    rfl
  · rw [proxySSH_success longProxy rfl rfl rfl rfl rfl rfl]
    rfl

end Agent

namespace Agent

/-! ## The dispatcher -/

theorem proxySSH_events (env : ProxyEnv) :
    (proxySSH env).1 = [] ∨
      ∃ p, (proxySSH env).1 = [Event.writeControlPacket MsgNum.MsgHandoffComplete p] := by
  unfold proxySSH
  cases env.dialAgentOk <;> cases env.currentUserOk <;> cases env.knownHostsOk <;>
    cases env.newProxyConnOk <;> cases env.updateClientSessionParamsOk <;>
    cases env.runOk <;> simp

/-- C8: for every connection whose first control message carries a
discriminator other than `MsgExecutionRequest`, `handleConnection` never calls
`policyInStore` or `AskForApproval`, writes no `ExecutionApproved`, does not
run `proxySSH` and leaves the store as it was; when the multiplexer and the
control stream were opened, all it does after reading the message is close
the control stream and then the multiplexer. -/
theorem handleConnection_rejects_other_first_message {K : Type} (env : ConnEnv K)
    (store : policyStore K) (h : env.msgNum ≠ MsgNum.MsgExecutionRequest) :
    Event.policyInStore ∉ (handleConnection env store).1 ∧
      Event.askForApproval ∉ (handleConnection env store).1 ∧
      (∀ p, Event.writeControlPacket MsgNum.MsgExecutionApproved p ∉
        (handleConnection env store).1) ∧
      Event.proxySSH ∉ (handleConnection env store).1 ∧
      (handleConnection env store).2 = store ∧
      (env.yamuxServerOk = true → env.acceptControlOk = true →
        (handleConnection env store).1 =
          [Event.yamuxServer, Event.ymuxAccept Stream.control, Event.readControlPacket,
           Event.streamClose Stream.control, Event.ymuxClose]) := by
  unfold handleConnection
  cases env.yamuxServerOk <;> cases env.acceptControlOk <;> simp [h]

/-- Witness for C8: a connection that opens with a handoff notice. -/
theorem handleConnection_rejects_other_first_message_witness :
    handoffFirstEnv.msgNum ≠ MsgNum.MsgExecutionRequest ∧
      Event.policyInStore ∉ (handleConnection handoffFirstEnv noRules).1 ∧
      Event.askForApproval ∉ (handleConnection handoffFirstEnv noRules).1 ∧
      (∀ p, Event.writeControlPacket MsgNum.MsgExecutionApproved p ∉
        (handleConnection handoffFirstEnv noRules).1) ∧
      Event.proxySSH ∉ (handleConnection handoffFirstEnv noRules).1 ∧
      (handleConnection handoffFirstEnv noRules).2 = noRules ∧
      (handoffFirstEnv.yamuxServerOk = true → handoffFirstEnv.acceptControlOk = true →
        (handleConnection handoffFirstEnv noRules).1 =
          [Event.yamuxServer, Event.ymuxAccept Stream.control, Event.readControlPacket,
           Event.streamClose Stream.control, Event.ymuxClose]) :=
  ⟨by decide,
    handleConnection_rejects_other_first_message handoffFirstEnv noRules (by decide)⟩

theorem handleConnection_of_request {K : Type} (env : ConnEnv K) (store : policyStore K)
    (req : ExecutionRequestMessage)
    (hy : env.yamuxServerOk = true) (hc : env.acceptControlOk = true)
    (hm : env.msgNum = MsgNum.MsgExecutionRequest)
    (hu : env.unmarshal env.payload = some req) :
    (handleConnection env store).1 =
      [Event.yamuxServer, Event.ymuxAccept Stream.control, Event.readControlPacket] ++
        (decideAndServe env store (env.newPolicy req.User req.Command req.Server)).1 := by
  simp [handleConnection, hy, hc, hm, hu]

/-- C2 (amended): for every store and every connection whose execution request
was read and parsed, `handleConnection` writes `ExecutionApproved` if and only
if `policyInStore` is true or `AskForApproval` returns no error.  In that case
it writes no `ExecutionDenied` and goes on to accept the data stream; it
accepts the transport stream exactly when the data stream was accepted, and
runs `proxySSH` exactly when both streams were accepted.  In every other case
it writes `ExecutionDenied`, never writes `ExecutionApproved`, accepts no
further stream and does not run `proxySSH`.  `AskForApproval` is invoked
exactly when `policyInStore` is false. -/
theorem handleConnection_decision {K : Type} (env : ConnEnv K) (store : policyStore K)
    (req : ExecutionRequestMessage)
    (hy : env.yamuxServerOk = true) (hc : env.acceptControlOk = true)
    (hm : env.msgNum = MsgNum.MsgExecutionRequest)
    (hu : env.unmarshal env.payload = some req)
    (policy : Policy) (hpol : policy = env.newPolicy req.User req.Command req.Server)
    (t : List Event) (ht : t = (handleConnection env store).1) :
    ((∃ p, Event.writeControlPacket MsgNum.MsgExecutionApproved p ∈ t) ↔
        (policyInStore env.getPolicyKey store policy = true ∨
          (env.askForApproval policy store).1 = false)) ∧
      ((policyInStore env.getPolicyKey store policy = true ∨
          (env.askForApproval policy store).1 = false) →
        (∀ p, Event.writeControlPacket MsgNum.MsgExecutionDenied p ∉ t) ∧
        Event.ymuxAccept Stream.sshData ∈ t ∧
        (Event.ymuxAccept Stream.transport ∈ t ↔ env.acceptDataOk = true) ∧
        (Event.proxySSH ∈ t ↔ (env.acceptDataOk = true ∧ env.acceptTransportOk = true))) ∧
      (¬ (policyInStore env.getPolicyKey store policy = true ∨
          (env.askForApproval policy store).1 = false) →
        Event.writeControlPacket MsgNum.MsgExecutionDenied (Payload.bytes []) ∈ t ∧
        (∀ p, Event.writeControlPacket MsgNum.MsgExecutionApproved p ∉ t) ∧
        Event.ymuxAccept Stream.sshData ∉ t ∧
        Event.ymuxAccept Stream.transport ∉ t ∧
        Event.proxySSH ∉ t) ∧
      (Event.askForApproval ∈ t ↔ policyInStore env.getPolicyKey store policy = false) := by
  subst hpol
  subst ht
  rw [handleConnection_of_request env store req hy hc hm hu]
  unfold decideAndServe serveApproved
  rcases proxySSH_events env.proxy with hp | ⟨p0, hp⟩ <;>
    cases hin : policyInStore env.getPolicyKey store
        (env.newPolicy req.User req.Command req.Server) <;>
    cases hask : (env.askForApproval (env.newPolicy req.User req.Command req.Server) store).1 <;>
    cases env.acceptDataOk <;> cases env.acceptTransportOk <;>
    cases (proxySSH env.proxy).2 <;>
    simp [hp, hin, hask]

end Agent

namespace Agent

/-- Witness for C2 (amended): a request for `ls` against an empty store, with a
prompt that denies. -/
theorem handleConnection_decision_witness :
    requestEnv.yamuxServerOk = true ∧ requestEnv.acceptControlOk = true ∧
      requestEnv.msgNum = MsgNum.MsgExecutionRequest ∧
      requestEnv.unmarshal requestEnv.payload =
        some { User := "alice", Command := "ls", Server := "db1" } ∧
      (((∃ p, Event.writeControlPacket MsgNum.MsgExecutionApproved p ∈
            (handleConnection requestEnv noRules).1) ↔
          (policyInStore requestEnv.getPolicyKey noRules
              (requestEnv.newPolicy "alice" "ls" "db1") = true ∨
            (requestEnv.askForApproval (requestEnv.newPolicy "alice" "ls" "db1") noRules).1 =
              false)) ∧
        ((policyInStore requestEnv.getPolicyKey noRules
              (requestEnv.newPolicy "alice" "ls" "db1") = true ∨
            (requestEnv.askForApproval (requestEnv.newPolicy "alice" "ls" "db1") noRules).1 =
              false) →
          (∀ p, Event.writeControlPacket MsgNum.MsgExecutionDenied p ∉
            (handleConnection requestEnv noRules).1) ∧
          Event.ymuxAccept Stream.sshData ∈ (handleConnection requestEnv noRules).1 ∧
          (Event.ymuxAccept Stream.transport ∈ (handleConnection requestEnv noRules).1 ↔
            requestEnv.acceptDataOk = true) ∧
          (Event.proxySSH ∈ (handleConnection requestEnv noRules).1 ↔
            (requestEnv.acceptDataOk = true ∧ requestEnv.acceptTransportOk = true))) ∧
        (¬ (policyInStore requestEnv.getPolicyKey noRules
              (requestEnv.newPolicy "alice" "ls" "db1") = true ∨
            (requestEnv.askForApproval (requestEnv.newPolicy "alice" "ls" "db1") noRules).1 =
              false) →
          Event.writeControlPacket MsgNum.MsgExecutionDenied (Payload.bytes []) ∈
            (handleConnection requestEnv noRules).1 ∧
          (∀ p, Event.writeControlPacket MsgNum.MsgExecutionApproved p ∉
            (handleConnection requestEnv noRules).1) ∧
          Event.ymuxAccept Stream.sshData ∉ (handleConnection requestEnv noRules).1 ∧
          Event.ymuxAccept Stream.transport ∉ (handleConnection requestEnv noRules).1 ∧
          Event.proxySSH ∉ (handleConnection requestEnv noRules).1) ∧
        (Event.askForApproval ∈ (handleConnection requestEnv noRules).1 ↔
          policyInStore requestEnv.getPolicyKey noRules
            (requestEnv.newPolicy "alice" "ls" "db1") = false)) :=
  ⟨rfl, rfl, rfl, rfl,
    handleConnection_decision requestEnv noRules
      { User := "alice", Command := "ls", Server := "db1" } rfl rfl rfl rfl
      (requestEnv.newPolicy "alice" "ls" "db1") rfl
      (handleConnection requestEnv noRules).1 rfl⟩

/-- C2 as stated fails when the peer never opens the data stream: the prompt
returns no error and `ExecutionApproved` is written, yet the transport stream
is not accepted and `proxySSH` is not run. -/
theorem handleConnection_decision_counterexample :
    (noDataStreamEnv.askForApproval (noDataStreamEnv.newPolicy "alice" "ls" "db1") noRules).1 =
        false ∧
      (handleConnection noDataStreamEnv noRules).1 =
        [Event.yamuxServer, Event.ymuxAccept Stream.control, Event.readControlPacket,
         Event.policyInStore, Event.askForApproval,
         Event.writeControlPacket MsgNum.MsgExecutionApproved (Payload.bytes []),
         Event.ymuxAccept Stream.sshData,
         Event.streamClose Stream.control, Event.ymuxClose] ∧
      Event.ymuxAccept Stream.transport ∉ (handleConnection noDataStreamEnv noRules).1 ∧
      Event.proxySSH ∉ (handleConnection noDataStreamEnv noRules).1 := by
  refine ⟨rfl, by decide, by decide, by decide⟩

end Agent
